import Mathlib

/-!
Verification of the iCloud sync-readiness engine of `ot/icloud.py`.

The file gives a shallow embedding of the module's functions:

* `is_dataless_file` — the three-signal metadata classifier (lines 43-68);
* `find_dataless_files`, `find_icloud_placeholders`,
  `find_recently_modified_files` — the recursive scanners (lines 71-110,
  291-309, 312-356);
* `download_dataless_file`, `download_batch_brctl`,
  `download_dataless_files` — the batch materializer (lines 113-288);
* `wait_aux` / `wait_for_icloud_sync` — the readiness coordinator's polling
  loop (lines 359-464).

Filesystem contents and the outcomes of external commands are supplied as
explicit parameters (lists of directory entries, boolean oracles for
command success and for the time-varying dataless state observed by the
verification retries).  Wall-clock time is idealized: each
`time.sleep(check_interval)` advances elapsed time by exactly
`check_interval`, scans take zero time; time values are rationals.
-/

namespace OT

/-- A filesystem path, identified by its string form. -/
abbrev FsPath := String

/-- `UF_COMPRESSED = 0x20`, the macOS file flag tested by
`is_dataless_file` (line 21 of `icloud.py`). -/
def UF_COMPRESSED : Nat := 0x20

/-- Result of a successful `os.stat` call, restricted to the fields the
module reads.  `st_flags` is `none` on platforms where the attribute does
not exist (accessing it raises `AttributeError`, which the code catches). -/
structure StatResult where
  st_flags : Option Nat
  st_blocks : Nat
  st_size : Nat
  st_mtime : ℚ
deriving DecidableEq

/-- `is_dataless_file` (lines 43-68): a single `os.stat`; true exactly when
the `UF_COMPRESSED` flag is set, `st_blocks == 0` and `st_size > 0`.  A
failing stat (`OSError`, modelled by the argument being `none`) or a missing
`st_flags` attribute (`AttributeError`) yields `false`. -/
def is_dataless_file (st : Option StatResult) : Bool :=
  match st with
  | none => false
  | some s =>
    match s.st_flags with
    | none => false
    | some flags =>
      let has_compressed_flag := flags &&& UF_COMPRESSED != 0
      let has_no_blocks := s.st_blocks == 0
      let has_size := decide (0 < s.st_size)
      has_compressed_flag && has_no_blocks && has_size

/-- One entry produced by the recursive traversal `directory.rglob("*")`:
its final name component, its full path, whether it is a regular file, and
the result of stat-ing it (`none` when `os.stat` raises `OSError`). -/
structure Entry where
  name : String
  path : FsPath
  isFile : Bool
  stat : Option StatResult
deriving DecidableEq

/-- Python's `pattern in file_path.name` substring test. -/
def containsPattern (name pat : String) : Bool :=
  decide (pat.toList <:+: name.toList)

/-- Python's `exclude_patterns or default`: an absent (`None`) or empty
pattern list is replaced by the default (both are falsy). -/
def orDefault (ps : Option (List String)) (d : List String) : List String :=
  match ps with
  | none => d
  | some [] => d
  | some (p :: rest) => p :: rest

/-- `any(pattern in file_path.name for pattern in exclude_patterns)`. -/
def excludedBy (pats : List String) (e : Entry) : Bool :=
  pats.any (fun p => containsPattern e.name p)

/-- `find_dataless_files` (lines 71-110): default exclude list
`[".DS_Store"]`; empty result when the root does not exist; otherwise every
file entry whose name matches no exclude pattern and which classifies as
dataless. -/
def find_dataless_files (root_exists : Bool) (entries : List Entry)
    (exclude_patterns : Option (List String)) : List FsPath :=
  let pats := orDefault exclude_patterns [".DS_Store"]
  if !root_exists then []
  else
    (entries.filter
      (fun e => e.isFile && !excludedBy pats e && is_dataless_file e.stat)).map
      (fun e => e.path)

/-- The `rglob("*.icloud")` name test: the entry name ends in `.icloud`. -/
def matchesIcloudGlob (name : String) : Bool :=
  ".icloud".toList.isSuffixOf name.toList

/-- `find_icloud_placeholders` (lines 291-309): empty when the root does not
exist, otherwise every entry (files and directories alike) matching
`*.icloud`.  The function takes no exclude-pattern parameter. -/
def find_icloud_placeholders (root_exists : Bool) (entries : List Entry) :
    List FsPath :=
  if !root_exists then []
  else (entries.filter (fun e => matchesIcloudGlob e.name)).map (fun e => e.path)

/-- `find_recently_modified_files` (lines 312-356): default exclude list
`[".icloud", ".DS_Store"]`; empty when the root does not exist; otherwise
every file entry, not excluded, whose stat succeeds and whose mtime is
strictly newer than `now - seconds`. -/
def find_recently_modified_files (root_exists : Bool) (entries : List Entry)
    (now seconds : ℚ) (exclude_patterns : Option (List String)) : List FsPath :=
  let pats := orDefault exclude_patterns [".icloud", ".DS_Store"]
  if !root_exists then []
  else
    (entries.filter
      (fun e => e.isFile && !excludedBy pats e &&
        (match e.stat with
         | some st => decide (now - seconds < st.st_mtime)
         | none => false))).map (fun e => e.path)

/-! ## Batch materializer (lines 113-288)

External effects are abstracted by oracles: `cmd_ok` tells whether the
trigger subprocess ran without raising, `datalessAt f k` is the value of
`is_dataless_file f` observed by the `k`-th verification re-check. -/

/-- `download_dataless_file` (lines 113-163): run the trigger command
(`brctl download` or `cat`); on a raised subprocess error return `False`;
otherwise succeed as soon as one of the `max_verify_attempts` re-checks, or
the final check, observes the file non-dataless. -/
def download_dataless_file (cmd_ok : Bool) (datalessAt : Nat → Bool)
    (max_verify_attempts : Nat) : Bool :=
  if !cmd_ok then false
  else
    ((List.range max_verify_attempts).any (fun k => !datalessAt k))
      || !datalessAt max_verify_attempts

/-- The per-file verification loop of `_download_batch_brctl`
(lines 278-286): up to 3 re-checks, success as soon as one observes the
file non-dataless. -/
def verify_batch_file (datalessAt : FsPath → Nat → Bool) (f : FsPath) : Bool :=
  (List.range 3).any (fun k => !datalessAt f k)

/-- The batch loop of `_download_batch_brctl` (lines 257-286): process
`files` in chunks of `batch_size`, counting per chunk the files whose
verification succeeded and the ones whose verification failed. `fuel` is an
upper bound on the number of chunks (the list length suffices when
`batch_size ≥ 1`). -/
def download_batch_go (datalessAt : FsPath → Nat → Bool) (batch_size : Nat) :
    Nat → List FsPath → Nat × Nat
  | _, [] => (0, 0)
  | 0, _ :: _ => (0, 0)
  | fuel + 1, f :: rest =>
    let batch := (f :: rest).take batch_size
    let succ_here := (batch.filter (fun x => verify_batch_file datalessAt x)).length
    let fail_here := (batch.filter (fun x => !verify_batch_file datalessAt x)).length
    let r := download_batch_go datalessAt batch_size fuel ((f :: rest).drop batch_size)
    (succ_here + r.1, fail_here + r.2)

/-- `_download_batch_brctl` (lines 237-288).  With `batch_size = 0` the
source's `range(0, total, batch_size)` raises `ValueError`, modelled as
`none`. -/
def download_batch_brctl (datalessAt : FsPath → Nat → Bool) (batch_size : Nat)
    (files : List FsPath) : Option (Nat × Nat) :=
  if batch_size = 0 then none
  else some (download_batch_go datalessAt batch_size files.length files)

/-- The single-file fallback loop of `download_dataless_files`
(lines 213-227): one `download_dataless_file` call per file, counting
successes and failures.  It uses the source's default
`max_verify_attempts = 3`. -/
def download_single_loop (cmd_ok : FsPath → Bool)
    (datalessAt : FsPath → Nat → Bool) : List FsPath → Nat × Nat
  | [] => (0, 0)
  | f :: rest =>
    let r := download_single_loop cmd_ok datalessAt rest
    if download_dataless_file (cmd_ok f) (datalessAt f) 3 then (r.1 + 1, r.2)
    else (r.1, r.2 + 1)

/-- `download_dataless_files` (lines 166-234): rediscover the dataless
files, return `(0, 0)` when there are none, otherwise truncate to the first
`max_files` and dispatch to batch mode (when requested and `brctl` is
available) or to the single-file loop. -/
def download_dataless_files (root_exists : Bool) (entries : List Entry)
    (max_files : Nat) (use_batch_mode brctl_available : Bool) (batch_size : Nat)
    (datalessAt : FsPath → Nat → Bool) (cmd_ok : FsPath → Bool)
    (singleDatalessAt : FsPath → Nat → Bool) : Option (Nat × Nat) :=
  let dataless_files := find_dataless_files root_exists entries none
  if dataless_files.isEmpty then some (0, 0)
  else
    let files_to_download := dataless_files.take max_files
    if use_batch_mode && brctl_available then
      download_batch_brctl datalessAt batch_size files_to_download
    else
      some (download_single_loop cmd_ok singleDatalessAt files_to_download)

/-! ## Subprocess trace of a materialization call (lines 24-40, 133-149)

`check_brctl_available` runs `which brctl` on every call — there is no
module-level cache and no memoization — and `download_dataless_file` calls
it unconditionally at its start.  The trace records the external commands
one `download_dataless_file` call spawns, in order. -/

/-- An external command the module spawns via `subprocess.run`. -/
inductive ExtCommand where
  /-- `which brctl` — the capability probe of `check_brctl_available`. -/
  | probe : ExtCommand
  /-- `brctl download <f>` — the native materialization trigger. -/
  | brctlDownload : FsPath → ExtCommand
  /-- `cat <f>` — the fallback forcing read. -/
  | catRead : FsPath → ExtCommand
deriving DecidableEq

/-- The external commands run by `check_brctl_available` (lines 24-40): the
probe, executed each time the function is called — the module keeps no
cache of the result. -/
def check_brctl_available_trace : List ExtCommand := [ExtCommand.probe]

/-- The external commands spawned by one `download_dataless_file` call
(lines 113-163): first the capability probe (line 133 calls
`check_brctl_available()` unconditionally), then the trigger command chosen
from the probe's result. -/
def download_dataless_file_trace (brctl_available : Bool) (f : FsPath) :
    List ExtCommand :=
  check_brctl_available_trace
    ++ [if brctl_available then ExtCommand.brctlDownload f
        else ExtCommand.catRead f]

/-- The concatenated subprocess trace of a sequence of
`download_dataless_file` calls, one per listed file. -/
def repeated_download_trace (brctl_available : Bool) (files : List FsPath) :
    List ExtCommand :=
  (files.map (fun f => download_dataless_file_trace brctl_available f)).flatten

/-- How many times the capability probe ran in a subprocess trace. -/
def countProbes (trace : List ExtCommand) : Nat :=
  (trace.filter (fun c => c == ExtCommand.probe)).length

/-! ## Readiness coordinator (lines 359-464)

One `Sample` holds the results of the three scans a poll iteration can
perform; the environment `env : Nat → Sample` gives the filesystem as
observed at the `n`-th iteration (it may change between iterations).  Time
is idealized: `elapsed` starts at 0 and each sleep adds `check_interval`.
The loop is modelled with explicit fuel; `none` means the fuel ran out
before the loop returned (the source loop itself has no such exit). -/

/-- The scan results one poll iteration of `wait_for_icloud_sync` can
observe. -/
structure Sample where
  placeholders : List FsPath
  dataless : List FsPath
  recent : List FsPath
deriving DecidableEq

/-- Outcome of a `wait_for_icloud_sync` run: the returned boolean, the
number of `download_dataless_files` calls made, and the number of poll
iterations that passed the deadline check (each such iteration performs at
least one filesystem scan). -/
structure RunResult where
  result : Bool
  downloadCalls : Nat
  scans : Nat
deriving DecidableEq

/-- The polling loop of `wait_for_icloud_sync` (lines 395-462), one
recursive call per iteration of the source's `while True`.  State:
iteration index `n`, `elapsed` time, `stable` counter,
`attempted` (= `dataless_download_attempted`), `dc` = download calls so
far.  Branches, in source order: deadline check (line 398, returns `False`);
placeholder check (line 407, resets the counter and sleeps); dataless check
(line 418: first time with downloading enabled, one materializer call,
reset and sleep; otherwise a warning and fall-through); recent-modification
check (line 443, reset and sleep); clean sample: increment the counter and
return `True` at the threshold (after the fixed 1-second settle sleep of
line 459, which does not affect the returned value). -/
def wait_aux (env : Nat → Sample) (max_wait check_interval : ℚ)
    (stability_threshold : Nat) (download_dataless : Bool) :
    Nat → Nat → ℚ → Nat → Bool → Nat → Option RunResult
  | 0, _, _, _, _, _ => none
  | fuel + 1, n, elapsed, stable, attempted, dc =>
    if max_wait ≤ elapsed then some ⟨false, dc, n⟩
    else if !(env n).placeholders.isEmpty then
      wait_aux env max_wait check_interval stability_threshold download_dataless
        fuel (n + 1) (elapsed + check_interval) 0 attempted dc
    else if !(env n).dataless.isEmpty && download_dataless && !attempted then
      wait_aux env max_wait check_interval stability_threshold download_dataless
        fuel (n + 1) (elapsed + check_interval) 0 true (dc + 1)
    else if !(env n).recent.isEmpty then
      wait_aux env max_wait check_interval stability_threshold download_dataless
        fuel (n + 1) (elapsed + check_interval) 0 attempted dc
    else if stability_threshold ≤ stable + 1 then some ⟨true, dc, n + 1⟩
    else
      wait_aux env max_wait check_interval stability_threshold download_dataless
        fuel (n + 1) (elapsed + check_interval) (stable + 1) attempted dc

/-- `wait_for_icloud_sync` (lines 359-464): run the polling loop from the
initial state of lines 391-393 (`elapsed = 0`, `stable_count = 0`,
`dataless_download_attempted = False`). -/
def wait_for_icloud_sync (env : Nat → Sample) (max_wait check_interval : ℚ)
    (stability_threshold : Nat) (download_dataless : Bool) (fuel : Nat) :
    Option RunResult :=
  wait_aux env max_wait check_interval stability_threshold download_dataless
    fuel 0 0 0 false 0

/-- The environment `wait_for_icloud_sync` builds from a filesystem tree:
line 406 scans placeholders, lines 417/432 scan dataless files with no
exclude patterns, line 442 scans recent modifications with `seconds=5` and
no exclude patterns.  `now n` is the clock value at iteration `n`. -/
def sync_env (root_exists : Bool) (entries : List Entry) (now : Nat → ℚ)
    (n : Nat) : Sample :=
  ⟨find_icloud_placeholders root_exists entries,
   find_dataless_files root_exists entries none,
   find_recently_modified_files root_exists entries (now n) 5 none⟩

/-- The returned boolean of a run, `false` when the fuel ran out. -/
def runReturns (o : Option RunResult) : Bool :=
  match o with
  | some r => r.result
  | none => false

/-- The download-call count of a run, `0` when the fuel ran out. -/
def runDownloads (o : Option RunResult) : Nat :=
  match o with
  | some r => r.downloadCalls
  | none => 0

/-- The scan-iteration count of a run, `0` when the fuel ran out. -/
def runScans (o : Option RunResult) : Nat :=
  match o with
  | some r => r.scans
  | none => 0

/-- Sum of the two counters of a materializer result, `0` on the
error outcome. -/
def countsSum (o : Option (Nat × Nat)) : Nat :=
  match o with
  | some r => r.1 + r.2
  | none => 0

/-! ## Helper lemmas about the polling loop -/

/-- One-step unfolding of `wait_aux` at positive fuel. -/
lemma wait_aux_succ (env : Nat → Sample) (mw iv : ℚ) (th : Nat) (dl : Bool)
    (fuel n : Nat) (elapsed : ℚ) (stable : Nat) (att : Bool) (dc : Nat) :
    wait_aux env mw iv th dl (fuel + 1) n elapsed stable att dc =
      (if mw ≤ elapsed then some ⟨false, dc, n⟩
       else if !(env n).placeholders.isEmpty then
         wait_aux env mw iv th dl fuel (n + 1) (elapsed + iv) 0 att dc
       else if !(env n).dataless.isEmpty && dl && !att then
         wait_aux env mw iv th dl fuel (n + 1) (elapsed + iv) 0 true (dc + 1)
       else if !(env n).recent.isEmpty then
         wait_aux env mw iv th dl fuel (n + 1) (elapsed + iv) 0 att dc
       else if th ≤ stable + 1 then some ⟨true, dc, n + 1⟩
       else wait_aux env mw iv th dl fuel (n + 1) (elapsed + iv) (stable + 1) att dc) :=
  rfl

/-- A run over samples on which no branch before the stability check fires
(`attempted` and `download_dataless` permitting) increments the stability
counter once per iteration and returns `true` at the threshold. -/
lemma wait_aux_stable_run (env : Nat → Sample) (mw iv : ℚ) (th : Nat)
    (dl att : Bool) (dc : Nat) (hiv : 0 ≤ iv)
    (hno : ∀ m, (env m).placeholders = [] ∧ (env m).recent = [] ∧
      ((env m).dataless = [] ∨ dl = false ∨ att = true)) :
    ∀ k fuel n (elapsed : ℚ) stable, stable + k = th → 1 ≤ k →
      elapsed + ((k : ℚ) - 1) * iv < mw → k ≤ fuel →
      wait_aux env mw iv th dl fuel n elapsed stable att dc =
        some ⟨true, dc, n + k⟩ := by
  intro k
  induction k with
  | zero => intro fuel n elapsed stable _ h1; exact absurd h1 (by omega)
  | succ j ih =>
    intro fuel n elapsed stable hsum _ hdead hfuel
    obtain ⟨f, rfl⟩ : ∃ f, fuel = f + 1 := ⟨fuel - 1, by omega⟩
    have hjiv : (0 : ℚ) ≤ (j : ℚ) * iv := by positivity
    have hlt : elapsed < mw := by push_cast at hdead; nlinarith
    have hdcond : (!(env n).dataless.isEmpty && dl && !att) = false := by
      rcases (hno n).2.2 with h | h | h <;> simp [h]
    rw [wait_aux_succ, if_neg (not_le.mpr hlt), (hno n).1, hdcond, (hno n).2.1]
    simp only [List.isEmpty_nil, Bool.not_true, Bool.false_eq_true, if_false]
    rcases Nat.eq_zero_or_pos j with hj | hj
    · subst hj
      rw [if_pos (by omega)]
    · rw [if_neg (by omega)]
      have := ih f (n + 1) (elapsed + iv) (stable + 1) (by omega) hj
        (by push_cast at hdead ⊢; nlinarith) (by omega)
      rw [this, show n + 1 + j = n + (j + 1) by omega]

/-- With zero remaining fuel the loop yields no result, so at positive fuel
and an expired deadline the very first check returns. -/
lemma wait_aux_deadline (env : Nat → Sample) (mw iv : ℚ) (th : Nat)
    (dl : Bool) (fuel n : Nat) (elapsed : ℚ) (stable : Nat) (att : Bool)
    (dc : Nat) (hfuel : 0 < fuel) (hdead : mw ≤ elapsed) :
    wait_aux env mw iv th dl fuel n elapsed stable att dc =
      some ⟨false, dc, n⟩ := by
  obtain ⟨f, rfl⟩ : ∃ f, fuel = f + 1 := ⟨fuel - 1, by omega⟩
  rw [wait_aux_succ, if_pos hdead]

/-- The materializer is called at most once more than the attempts already
recorded: the `attempted` flag, once set, suppresses the download branch
for the rest of the run. -/
lemma wait_aux_downloads_le (env : Nat → Sample) (mw iv : ℚ) (th : Nat)
    (dl : Bool) :
    ∀ fuel n (elapsed : ℚ) stable (att : Bool) dc r,
      wait_aux env mw iv th dl fuel n elapsed stable att dc = some r →
      r.downloadCalls ≤ dc + (if att then 0 else 1) := by
  intro fuel
  induction fuel with
  | zero => intro n elapsed stable att dc r h; exact absurd h (by simp [wait_aux])
  | succ f ih =>
    intro n elapsed stable att dc r h
    rw [wait_aux_succ] at h
    split at h
    · cases h; split <;> simp
    · split at h
      · have := ih _ _ _ _ _ _ h; omega
      · split at h
        · rename_i hcond
          simp only [Bool.and_eq_true, Bool.not_eq_true'] at hcond
          obtain ⟨⟨-, -⟩, hatt⟩ := hcond
          subst hatt
          have := ih _ _ _ _ _ _ h
          simp only [if_true] at this
          simp only [Bool.false_eq_true, if_false]
          omega
        · split at h
          · have := ih _ _ _ _ _ _ h; omega
          · split at h
            · cases h; split <;> simp
            · have := ih _ _ _ _ _ _ h; omega

/-- On a tree whose samples never show placeholders or recent activity,
a run started with `attempted = false` makes at most one materializer call
and reaches the threshold within `k + th` further iterations, where `k`
is the number of clean samples still needed. -/
lemma wait_aux_dataless_run (env : Nat → Sample) (mw iv : ℚ) (th : Nat)
    (dl : Bool) (hiv : 0 ≤ iv)
    (hno : ∀ m, (env m).placeholders = [] ∧ (env m).recent = []) :
    ∀ k fuel n (elapsed : ℚ) stable dc, stable + k = th → 1 ≤ k →
      elapsed + ((k : ℚ) + (th : ℚ) - 1) * iv < mw → k + th ≤ fuel →
      ∃ dcf N, wait_aux env mw iv th dl fuel n elapsed stable false dc =
          some ⟨true, dcf, N⟩ ∧ dcf ≤ dc + 1 ∧ N ≤ n + k + th := by
  intro k
  induction k with
  | zero => intro fuel n elapsed stable dc _ h1; exact absurd h1 (by omega)
  | succ j ih =>
    intro fuel n elapsed stable dc hsum _ hdead hfuel
    have hth : 1 ≤ th := by omega
    obtain ⟨f, rfl⟩ : ∃ f, fuel = f + 1 := ⟨fuel - 1, by omega⟩
    have hnn : (0 : ℚ) ≤ ((j : ℚ) + (th : ℚ)) * iv := by positivity
    have hlt : elapsed < mw := by push_cast at hdead; nlinarith
    rw [wait_aux_succ, if_neg (not_le.mpr hlt), (hno n).1, (hno n).2]
    simp only [List.isEmpty_nil, Bool.not_true, Bool.false_eq_true, if_false,
      Bool.not_false, Bool.and_true]
    by_cases hdl : (!(env n).dataless.isEmpty && dl) = true
    · -- the materializer fires now; afterwards `attempted = true` and the
      -- remaining run is a clean stable run of length `th`
      rw [if_pos hdl]
      refine ⟨dc + 1, n + 1 + th, ?_, le_refl _, by omega⟩
      exact wait_aux_stable_run env mw iv th dl true (dc + 1) hiv
        (fun m => ⟨(hno m).1, (hno m).2, Or.inr (Or.inr rfl)⟩)
        th f (n + 1) (elapsed + iv) 0 (by omega) hth
        (by push_cast at hdead ⊢; nlinarith) (by omega)
    · -- no download this iteration: the sample is clean
      rw [if_neg hdl]
      rcases Nat.eq_zero_or_pos j with hj | hj
      · subst hj
        rw [if_pos (by omega)]
        exact ⟨dc, n + 1, rfl, by omega, by omega⟩
      · rw [if_neg (by omega)]
        obtain ⟨dcf, N, hrun, hdc, hN⟩ := ih f (n + 1) (elapsed + iv)
          (stable + 1) dc (by omega) hj
          (by push_cast at hdead ⊢; nlinarith) (by omega)
        exact ⟨dcf, N, hrun, hdc, by omega⟩

/-- On a tree whose samples always show placeholders, the loop only resets
the counter and sleeps, and returns `false` at the first iteration whose
elapsed time reaches the deadline. -/
lemma wait_aux_placeholder_run (env : Nat → Sample) (mw iv : ℚ) (th : Nat)
    (dl : Bool) (hph : ∀ m, (env m).placeholders ≠ []) :
    ∀ (fuel n stable : Nat) (att : Bool) (dc : Nat),
      mw ≤ ((n : ℚ) + (fuel : ℚ) - 1) * iv →
      ((n : ℚ) - 1) * iv < mw →
      ∃ N, wait_aux env mw iv th dl fuel n ((n : ℚ) * iv) stable att dc =
          some ⟨false, dc, N⟩ ∧ mw ≤ (N : ℚ) * iv ∧ ((N : ℚ) - 1) * iv < mw := by
  intro fuel
  induction fuel with
  | zero =>
    intro n stable att dc hup hlow
    push_cast at hup
    nlinarith
  | succ f ih =>
    intro n stable att dc hup hlow
    by_cases hd : mw ≤ (n : ℚ) * iv
    · exact ⟨n, by rw [wait_aux_succ, if_pos hd], hd, hlow⟩
    · have hph' : (!(env n).placeholders.isEmpty) = true := by
        simpa [List.isEmpty_iff] using hph n
      rw [wait_aux_succ, if_neg hd, if_pos hph']
      have harith : (n : ℚ) * iv + iv = ((n + 1 : Nat) : ℚ) * iv := by
        push_cast; ring
      rw [harith]
      obtain ⟨N, hrun, h1, h2⟩ := ih (n + 1) 0 att dc
        (by push_cast at hup ⊢; nlinarith) (by push_cast; linarith [not_le.mp hd])
      exact ⟨N, hrun, h1, h2⟩

/-! ## Claim theorems -/

/-- C4: `is_dataless_file p` returns `True` exactly when a single stat of
`p` reports all three signals together: the `UF_COMPRESSED` flag set, zero
allocated blocks, and a logical size greater than zero; when any signal is
missing — including a missing flag attribute or a failing stat — the
classification returns `False`. -/
theorem claim_C4_is_dataless_iff (st : Option StatResult) :
    is_dataless_file st = true ↔
      ∃ s flags, st = some s ∧ s.st_flags = some flags ∧
        flags &&& UF_COMPRESSED ≠ 0 ∧ s.st_blocks = 0 ∧ 0 < s.st_size := by
  cases st with
  | none => simp [is_dataless_file]
  | some s =>
    cases hf : s.st_flags with
    | none => simp [is_dataless_file, hf]
    | some flags =>
      simp only [is_dataless_file, hf, Bool.and_eq_true, bne_iff_ne, ne_eq,
        beq_iff_eq, decide_eq_true_eq, Option.some.injEq]
      constructor
      · rintro ⟨⟨hflag, hblocks⟩, hsize⟩
        exact ⟨s, flags, rfl, hf, hflag, hblocks, hsize⟩
      · rintro ⟨s', flags', rfl, hf', hflag, hblocks, hsize⟩
        rw [hf] at hf'
        cases hf'
        exact ⟨⟨hflag, hblocks⟩, hsize⟩

/-- Evaluates C4 at a fully dataless stat and at a failing stat. -/
theorem claim_C4_witness :
    is_dataless_file (some ⟨some 32, 0, 5, 0⟩) = true ∧
    is_dataless_file none = false :=
  ⟨(claim_C4_is_dataless_iff (some ⟨some 32, 0, 5, 0⟩)).mpr
      ⟨⟨some 32, 0, 5, 0⟩, 32, rfl, rfl, by decide, rfl, by decide⟩,
   rfl⟩

/-- C3: on a tree where every poll sample finds zero placeholders, zero
dataless files and zero recently modified files, and the deadline is not
hit, `wait_for_icloud_sync` returns `True` after exactly
`stability_threshold` scan samples, with no materializer call.  (The
stability counter starts at 0, each branch that observes a non-clean sample
resets it to 0 in the definition of `wait_aux`, each clean sample
increments it, and the fixed 1-second settle sleep before the `True` return
does not change the returned value.) -/
theorem claim_C3_exact_threshold (env : Nat → Sample) (mw iv : ℚ)
    (th : Nat) (dl : Bool) (fuel : Nat) (hth : 1 ≤ th) (hiv : 0 ≤ iv)
    (hmw : ((th : ℚ) - 1) * iv < mw) (hfuel : th ≤ fuel)
    (hclean : ∀ m, env m = ⟨[], [], []⟩) :
    wait_for_icloud_sync env mw iv th dl fuel = some ⟨true, 0, th⟩ := by
  have h := wait_aux_stable_run env mw iv th dl false 0 hiv
    (fun m => by rw [hclean m]; exact ⟨rfl, rfl, Or.inl rfl⟩)
    th fuel 0 0 0 (by omega) hth (by simpa using hmw) hfuel
  simpa [wait_for_icloud_sync] using h

/-- Evaluates C3: two clean samples at threshold 2 yield `True` in exactly
two scans. -/
theorem claim_C3_witness :
    wait_for_icloud_sync (fun _ => ⟨[], [], []⟩) 10 1 2 true 2 =
      some ⟨true, 0, 2⟩ :=
  claim_C3_exact_threshold (fun _ => ⟨[], [], []⟩) 10 1 2 true 2
    (by norm_num) (by norm_num) (by norm_num) (by norm_num) (fun _ => rfl)

/-- C9: when the root directory does not exist, `find_icloud_placeholders`
and `find_dataless_files` (and the recent-files scan) all return empty
results, and a `wait_for_icloud_sync` call over that root reports readiness
(`True`) rather than raising an error, the deadline permitting. -/
theorem claim_C9_absent_root (entries : List Entry)
    (excl : Option (List String)) (now : Nat → ℚ) (mw iv : ℚ) (th : Nat)
    (dl : Bool) (fuel : Nat) (hth : 1 ≤ th) (hiv : 0 ≤ iv)
    (hmw : ((th : ℚ) - 1) * iv < mw) (hfuel : th ≤ fuel) :
    find_icloud_placeholders false entries = [] ∧
    find_dataless_files false entries excl = [] ∧
    find_recently_modified_files false entries (now 0) 5 excl = [] ∧
    wait_for_icloud_sync (sync_env false entries now) mw iv th dl fuel =
      some ⟨true, 0, th⟩ := by
  refine ⟨rfl, rfl, rfl, ?_⟩
  have h := wait_aux_stable_run (sync_env false entries now) mw iv th dl
    false 0 hiv (fun m => ⟨rfl, rfl, Or.inl rfl⟩)
    th fuel 0 0 0 (by omega) hth (by simpa using hmw) hfuel
  simpa [wait_for_icloud_sync] using h

/-- Evaluates C9 on a concrete tree under an absent root. -/
theorem claim_C9_witness :
    find_icloud_placeholders false [⟨"a.icloud", "r/a.icloud", true, none⟩] = [] ∧
    find_dataless_files false [⟨"a.icloud", "r/a.icloud", true, none⟩] none = [] ∧
    find_recently_modified_files false [⟨"a.icloud", "r/a.icloud", true, none⟩]
      0 5 none = [] ∧
    wait_for_icloud_sync
      (sync_env false [⟨"a.icloud", "r/a.icloud", true, none⟩] (fun _ => 0))
      10 1 2 true 2 = some ⟨true, 0, 2⟩ :=
  claim_C9_absent_root [⟨"a.icloud", "r/a.icloud", true, none⟩] none
    (fun _ => 0) 10 1 2 true 2 (by norm_num) (by norm_num) (by norm_num)
    (by norm_num)

/-- C1: during any single `wait_for_icloud_sync` call the materializer is
invoked at most once (first conjunct, for every environment and every
configuration); and on a tree where only dataless files are ever present —
no placeholders and no recent activity, the dataless files possibly never
resolving — the call still proceeds past the dataless check after at most
one materialization attempt (whether or not downloading is enabled) and
returns `True` once the deadline permits: dataless files alone never cause
a timeout. -/
theorem claim_C1_single_materialization (env : Nat → Sample) (mw iv : ℚ)
    (th : Nat) (dl : Bool) (fuel : Nat) (hth : 1 ≤ th) (hiv : 0 ≤ iv)
    (hmw : (2 * (th : ℚ) - 1) * iv < mw) (hfuel : 2 * th ≤ fuel)
    (hclean : ∀ m, (env m).placeholders = [] ∧ (env m).recent = []) :
    (∀ (env2 : Nat → Sample) (mw2 iv2 : ℚ) (th2 : Nat) (dl2 : Bool)
       (fuel2 : Nat) (r : RunResult),
       wait_for_icloud_sync env2 mw2 iv2 th2 dl2 fuel2 = some r →
       r.downloadCalls ≤ 1) ∧
    runReturns (wait_for_icloud_sync env mw iv th dl fuel) = true ∧
    runDownloads (wait_for_icloud_sync env mw iv th dl fuel) ≤ 1 ∧
    (wait_for_icloud_sync env mw iv th dl fuel).isSome = true := by
  constructor
  · intro env2 mw2 iv2 th2 dl2 fuel2 r h
    have := wait_aux_downloads_le env2 mw2 iv2 th2 dl2 fuel2 0 0 0 false 0 r h
    simpa using this
  · obtain ⟨dcf, N, hrun, hdc, hN⟩ :=
      wait_aux_dataless_run env mw iv th dl hiv hclean th fuel 0 0 0 0
        (by omega) hth (by nlinarith) (by omega)
    rw [wait_for_icloud_sync, hrun]
    refine ⟨rfl, ?_, rfl⟩
    simp only [runDownloads]
    omega

/-- Evaluates C1 on a tree whose dataless files never resolve: the run
returns `True` with at most one materializer call. -/
theorem claim_C1_witness :
    runReturns (wait_for_icloud_sync (fun _ => ⟨[], ["f"], []⟩) 10 1 2 true 4) =
      true ∧
    runDownloads (wait_for_icloud_sync (fun _ => ⟨[], ["f"], []⟩) 10 1 2 true 4) ≤
      1 := by
  have h := claim_C1_single_materialization (fun _ => ⟨[], ["f"], []⟩) 10 1 2
    true 4 (by norm_num) (by norm_num) (by norm_num) (by norm_num)
    (fun _ => ⟨rfl, rfl⟩)
  exact ⟨h.2.1, h.2.2.1⟩

/-- C2: at the top of every poll iteration the elapsed time is compared
against the deadline and, once `max_wait ≤ elapsed`, the loop returns
`False` immediately — same download count, no further scan iteration (first
conjunct, for an arbitrary loop state); and on a tree whose placeholders
never disappear the call returns `False` (through the return value of the
total function, not an exception) at the first iteration whose elapsed
time reaches the deadline, never looping past it (second conjunct). -/
theorem claim_C2_deadline :
    (∀ (env : Nat → Sample) (mw iv : ℚ) (th : Nat) (dl : Bool)
       (fuel n : Nat) (elapsed : ℚ) (stable : Nat) (att : Bool) (dc : Nat),
       0 < fuel → mw ≤ elapsed →
       wait_aux env mw iv th dl fuel n elapsed stable att dc =
         some ⟨false, dc, n⟩) ∧
    (∀ (env : Nat → Sample) (mw iv : ℚ) (th : Nat) (dl : Bool) (fuel : Nat),
       (∀ m, (env m).placeholders ≠ []) → 0 < mw → 0 < iv →
       mw ≤ ((fuel : ℚ) - 1) * iv →
       runReturns (wait_for_icloud_sync env mw iv th dl fuel) = false ∧
       (wait_for_icloud_sync env mw iv th dl fuel).isSome = true ∧
       mw ≤ (runScans (wait_for_icloud_sync env mw iv th dl fuel) : ℚ) * iv ∧
       ((runScans (wait_for_icloud_sync env mw iv th dl fuel) : ℚ) - 1) * iv <
         mw) := by
  constructor
  · intro env mw iv th dl fuel n elapsed stable att dc hfuel hdead
    exact wait_aux_deadline env mw iv th dl fuel n elapsed stable att dc
      hfuel hdead
  · intro env mw iv th dl fuel hph hmw hiv hup
    obtain ⟨N, hrun, h1, h2⟩ := wait_aux_placeholder_run env mw iv th dl hph
      fuel 0 0 false 0 (by push_cast; linarith) (by push_cast; nlinarith)
    simp only [Nat.cast_zero, zero_mul] at hrun
    rw [wait_for_icloud_sync, hrun]
    exact ⟨rfl, rfl, h1, h2⟩

/-- Evaluates C2: the deadline branch at an arbitrary mid-run state, and a
full run over never-vanishing placeholders. -/
theorem claim_C2_witness :
    wait_aux (fun _ => ⟨["p"], [], []⟩) 5 1 2 true 3 7 6 0 false 4 =
      some ⟨false, 4, 7⟩ ∧
    runReturns (wait_for_icloud_sync (fun _ => ⟨["p"], [], []⟩) 3 1 2 true 5) =
      false := by
  refine ⟨claim_C2_deadline.1 (fun _ => ⟨["p"], [], []⟩) 5 1 2 true 3 7 6 0
      false 4 (by norm_num) (by norm_num), ?_⟩
  exact (claim_C2_deadline.2 (fun _ => ⟨["p"], [], []⟩) 3 1 2 true 5
    (fun m => by simp) (by norm_num) (by norm_num) (by norm_num)).1

/-- C6 counterexample: with the invalid configuration
`stability_threshold = 0` the call is not rejected at entry: it performs a
poll iteration (a filesystem scan, `runScans ≠ 0`) and returns the normal
result `True`. -/
theorem claim_C6_counterexample :
    wait_for_icloud_sync (fun _ => ⟨[], [], []⟩) 10 1 0 true 5 =
      some ⟨true, 0, 1⟩ ∧
    runScans (wait_for_icloud_sync (fun _ => ⟨[], [], []⟩) 10 1 0 true 5) ≠
      0 := by
  constructor
  · rfl
  · decide

/-- C6 amended: `wait_for_icloud_sync` performs no configuration validation
at entry.  A non-positive `max_wait_seconds` makes the first deadline check
return `False` with zero scans (no filesystem access), not an error; a
`stability_threshold < 1` is accepted, the call polls normally and, on a
clean first sample, returns `True` after one scan. -/
theorem claim_C6_no_validation :
    (∀ (env : Nat → Sample) (mw iv : ℚ) (th : Nat) (dl : Bool) (fuel : Nat),
       0 < fuel → mw ≤ 0 →
       wait_for_icloud_sync env mw iv th dl fuel = some ⟨false, 0, 0⟩) ∧
    (∀ (env : Nat → Sample) (mw iv : ℚ) (dl : Bool) (fuel : Nat),
       0 < fuel → 0 < mw → (env 0).placeholders = [] →
       (env 0).dataless = [] → (env 0).recent = [] →
       wait_for_icloud_sync env mw iv 0 dl fuel = some ⟨true, 0, 1⟩) := by
  constructor
  · intro env mw iv th dl fuel hfuel hmw
    exact wait_aux_deadline env mw iv th dl fuel 0 0 0 false 0 hfuel hmw
  · intro env mw iv dl fuel hfuel hmw hp hd hr
    obtain ⟨f, rfl⟩ : ∃ f, fuel = f + 1 := ⟨fuel - 1, by omega⟩
    rw [wait_for_icloud_sync, wait_aux_succ, if_neg (not_le.mpr hmw), hp, hd,
      hr]
    simp

/-- Evaluates the amended C6 at both invalid configurations. -/
theorem claim_C6_witness :
    wait_for_icloud_sync (fun _ => ⟨["p"], [], []⟩) (-1) 1 2 true 3 =
      some ⟨false, 0, 0⟩ ∧
    wait_for_icloud_sync (fun _ => ⟨[], [], []⟩) 10 1 0 true 3 =
      some ⟨true, 0, 1⟩ :=
  ⟨claim_C6_no_validation.1 (fun _ => ⟨["p"], [], []⟩) (-1) 1 2 true 3
      (by norm_num) (by norm_num),
   claim_C6_no_validation.2 (fun _ => ⟨[], [], []⟩) 10 1 true 3 (by norm_num)
      (by norm_num) rfl rfl rfl⟩

/-! ## Helper lemmas about the materializer counts -/

/-- The single-file loop classifies every file as exactly one of success or
failure. -/
lemma download_single_loop_sum (cmd_ok : FsPath → Bool)
    (datalessAt : FsPath → Nat → Bool) (files : List FsPath) :
    (download_single_loop cmd_ok datalessAt files).1 +
      (download_single_loop cmd_ok datalessAt files).2 = files.length := by
  induction files with
  | nil => rfl
  | cons f rest ih =>
    simp only [download_single_loop, List.length_cons]
    split <;> simp <;> omega

/-- The batch loop classifies every file as exactly one of success or
failure, provided one chunk is non-empty and the fuel covers the list. -/
lemma download_batch_go_sum (datalessAt : FsPath → Nat → Bool)
    (batch_size : Nat) (hbs : 1 ≤ batch_size) :
    ∀ (fuel : Nat) (files : List FsPath), files.length ≤ fuel →
      (download_batch_go datalessAt batch_size fuel files).1 +
        (download_batch_go datalessAt batch_size fuel files).2 =
        files.length := by
  intro fuel
  induction fuel with
  | zero =>
    intro files h
    cases files with
    | nil => rfl
    | cons a rest => simp at h
  | succ f ih =>
    intro files h
    cases files with
    | nil => rfl
    | cons a rest =>
      simp only [download_batch_go]
      have hpart :
          (((a :: rest).take batch_size).filter
              (fun x => verify_batch_file datalessAt x)).length +
            (((a :: rest).take batch_size).filter
              (fun x => !verify_batch_file datalessAt x)).length =
            ((a :: rest).take batch_size).length :=
        (List.length_eq_length_filter_add
          (fun x => verify_batch_file datalessAt x)).symm
      have hrec := ih ((a :: rest).drop batch_size)
        (by simp only [List.length_drop, List.length_cons] at h ⊢; omega)
      have hsplit : ((a :: rest).take batch_size).length +
          ((a :: rest).drop batch_size).length = (a :: rest).length := by
        rw [List.length_take, List.length_drop]
        simp only [List.length_cons]
        omega
      omega

/-- C5: `download_dataless_files` returns a pair whose sum equals
`min(number of dataless files discovered, max_files)`, in batch mode and in
single-file mode alike; only the first `max_files` discovered files are
handed to either mode (`List.take max_files` in the definition), the excess
being reported in a warning only. -/
theorem claim_C5_counts_sum (root_exists : Bool) (entries : List Entry)
    (max_files : Nat) (use_batch_mode brctl_available : Bool)
    (batch_size : Nat) (datalessAt : FsPath → Nat → Bool)
    (cmd_ok : FsPath → Bool) (singleDatalessAt : FsPath → Nat → Bool)
    (hbs : 1 ≤ batch_size) :
    (download_dataless_files root_exists entries max_files use_batch_mode
        brctl_available batch_size datalessAt cmd_ok
        singleDatalessAt).isSome = true ∧
    countsSum (download_dataless_files root_exists entries max_files
        use_batch_mode brctl_available batch_size datalessAt cmd_ok
        singleDatalessAt) =
      min (find_dataless_files root_exists entries none).length max_files := by
  unfold download_dataless_files
  by_cases he : (find_dataless_files root_exists entries none).isEmpty
  · rw [if_pos he]
    have : (find_dataless_files root_exists entries none).length = 0 := by
      simpa [List.isEmpty_iff_length_eq_zero] using he
    simp [countsSum, this]
  · rw [if_neg he]
    by_cases hm : (use_batch_mode && brctl_available) = true
    · rw [if_pos hm]
      unfold download_batch_brctl
      rw [if_neg (by omega)]
      refine ⟨rfl, ?_⟩
      simp only [countsSum]
      rw [download_batch_go_sum datalessAt batch_size hbs _ _ (le_refl _),
        List.length_take, Nat.min_comm]
    · rw [if_neg hm]
      refine ⟨rfl, ?_⟩
      simp only [countsSum]
      rw [download_single_loop_sum, List.length_take, Nat.min_comm]

/-- Evaluates C5 on a one-dataless-file tree in batch mode. -/
theorem claim_C5_witness :
    (download_dataless_files true [⟨"a", "r/a", true, some ⟨some 32, 0, 5, 0⟩⟩]
        1000 true true 50 (fun _ _ => false) (fun _ => true)
        (fun _ _ => false)).isSome = true ∧
    countsSum (download_dataless_files true
        [⟨"a", "r/a", true, some ⟨some 32, 0, 5, 0⟩⟩] 1000 true true 50
        (fun _ _ => false) (fun _ => true) (fun _ _ => false)) =
      min (find_dataless_files true
        [⟨"a", "r/a", true, some ⟨some 32, 0, 5, 0⟩⟩] none).length 1000 :=
  claim_C5_counts_sum true [⟨"a", "r/a", true, some ⟨some 32, 0, 5, 0⟩⟩]
    1000 true true 50 (fun _ _ => false) (fun _ => true) (fun _ _ => false)
    (by norm_num)

/-- C7 counterexample: two consecutive `download_dataless_file` calls run
the capability probe twice, not once — the probe result is not cached
across materialization calls within a process. -/
theorem claim_C7_counterexample :
    countProbes (repeated_download_trace true ["a", "b"]) = 2 ∧
    countProbes (repeated_download_trace true ["a", "b"]) ≠ 1 := by
  constructor
  · rfl
  · decide

/-- C7 amended: `check_brctl_available` performs its probe on every call
and `download_dataless_file` invokes it once per call, so a sequence of
materialization calls performs one probe per call — nothing is cached for
the process. -/
theorem claim_C7_probe_per_call (brctl_available : Bool)
    (files : List FsPath) :
    countProbes (repeated_download_trace brctl_available files) =
      files.length := by
  induction files with
  | nil => rfl
  | cons f rest ih =>
    simp only [repeated_download_trace, List.map_cons, List.flatten_cons,
      countProbes, List.filter_append, List.length_append,
      List.length_cons] at ih ⊢
    rw [ih]
    cases brctl_available <;> simp [download_dataless_file_trace,
      check_brctl_available_trace] <;> omega

/-- C8 counterexample: an entry whose name contains the default exclude
pattern `.DS_Store` is still returned by `find_icloud_placeholders` — the
exclusion does not apply to the placeholder result. -/
theorem claim_C8_counterexample :
    find_icloud_placeholders true
        [⟨"b.DS_Store.icloud", "r/b.DS_Store.icloud", true, none⟩] =
      ["r/b.DS_Store.icloud"] ∧
    containsPattern "b.DS_Store.icloud" ".DS_Store" = true := by
  constructor
  · rfl
  · decide

/-- C8 amended: the substring exclusion applies only to the dataless
result — entries matching an exclude pattern can be removed from the input
without changing `find_dataless_files` — while `find_icloud_placeholders`
takes no exclude parameter and returns every `*.icloud` entry regardless of
any pattern. -/
theorem claim_C8_exclusion_scope (root_exists : Bool) (entries : List Entry)
    (excl : Option (List String)) :
    (find_dataless_files root_exists entries excl =
       find_dataless_files root_exists
         (entries.filter
           (fun e => !excludedBy (orDefault excl [".DS_Store"]) e)) excl) ∧
    (∀ e ∈ entries, matchesIcloudGlob e.name = true →
       e.path ∈ find_icloud_placeholders true entries) := by
  constructor
  · unfold find_dataless_files
    cases root_exists with
    | false => rfl
    | true =>
      simp only [Bool.not_true, Bool.false_eq_true, if_false]
      rw [List.filter_filter]
      refine congrArg _ (List.filter_congr ?_)
      intro e _
      cases hexc : excludedBy (orDefault excl [".DS_Store"]) e <;> simp [hexc]
  · intro e he hglob
    simp only [find_icloud_placeholders, Bool.not_true, Bool.false_eq_true,
      if_false, List.mem_map]
    exact ⟨e, List.mem_filter.mpr ⟨he, hglob⟩, rfl⟩

/-- Evaluates C8: a `.icloud` directory entry is reported by the
placeholder scan, and removing excluded entries leaves the dataless scan
unchanged on a concrete tree. -/
theorem claim_C8_witness :
    "r/x.icloud" ∈ find_icloud_placeholders true
        [⟨"x.icloud", "r/x.icloud", false, none⟩] ∧
    find_dataless_files true [⟨"a.DS_Store", "r/a.DS_Store", true, none⟩]
        none =
      find_dataless_files true
        ([⟨"a.DS_Store", "r/a.DS_Store", true, none⟩].filter
          (fun e => !excludedBy (orDefault none [".DS_Store"]) e)) none :=
  ⟨(claim_C8_exclusion_scope true [⟨"x.icloud", "r/x.icloud", false, none⟩]
       none).2 ⟨"x.icloud", "r/x.icloud", false, none⟩ (by simp) (by decide),
   (claim_C8_exclusion_scope true [⟨"a.DS_Store", "r/a.DS_Store", true, none⟩]
       none).1⟩

/-- C10: when no exclude patterns are passed, `find_dataless_files`
defaults to `[".DS_Store"]` while `find_recently_modified_files` defaults
to `[".icloud", ".DS_Store"]` (first two conjuncts); since
`wait_for_icloud_sync` passes no patterns to either scan, in every poll
cycle a dataless file whose name contains `.icloud` (and not `.DS_Store`)
is considered by the dataless classification yet ignored by the stability
check (third conjunct, over the coordinator's scan environment
`sync_env`). -/
theorem claim_C10_default_excludes (root_exists : Bool)
    (entries : List Entry) (now : Nat → ℚ) (t secs : ℚ) :
    (find_dataless_files root_exists entries none =
       find_dataless_files root_exists entries (some [".DS_Store"])) ∧
    (find_recently_modified_files root_exists entries t secs none =
       find_recently_modified_files root_exists entries t secs
         (some [".icloud", ".DS_Store"])) ∧
    (∀ e ∈ entries, (entries.map Entry.path).Nodup → e.isFile = true →
       is_dataless_file e.stat = true →
       containsPattern e.name ".DS_Store" = false →
       containsPattern e.name ".icloud" = true →
       ∀ n, e.path ∈ (sync_env true entries now n).dataless ∧
            e.path ∉ (sync_env true entries now n).recent) := by
  refine ⟨rfl, rfl, ?_⟩
  intro e he hnd hfile hdl hds hic n
  constructor
  · simp only [sync_env, find_dataless_files, Bool.not_true,
      Bool.false_eq_true, if_false, List.mem_map]
    refine ⟨e, List.mem_filter.mpr ⟨he, ?_⟩, rfl⟩
    simp [hfile, hdl, excludedBy, orDefault, hds]
  · simp only [sync_env, find_recently_modified_files, Bool.not_true,
      Bool.false_eq_true, if_false, List.mem_map]
    rintro ⟨e', he', hpath⟩
    have he'mem := (List.mem_filter.mp he').1
    have hee : e' = e :=
      List.inj_on_of_nodup_map hnd he'mem he hpath
    subst hee
    have := (List.mem_filter.mp he').2
    simp [excludedBy, orDefault, hic] at this

/-- Evaluates C10: a dataless `.icloud`-named file is in the dataless scan
of the coordinator's environment but absent from its recent-activity
scan. -/
theorem claim_C10_witness :
    "r/x.icloud.txt" ∈
      (sync_env true [⟨"x.icloud.txt", "r/x.icloud.txt", true,
        some ⟨some 32, 0, 5, 0⟩⟩] (fun _ => 100) 0).dataless ∧
    "r/x.icloud.txt" ∉
      (sync_env true [⟨"x.icloud.txt", "r/x.icloud.txt", true,
        some ⟨some 32, 0, 5, 0⟩⟩] (fun _ => 100) 0).recent :=
  (claim_C10_default_excludes true
      [⟨"x.icloud.txt", "r/x.icloud.txt", true, some ⟨some 32, 0, 5, 0⟩⟩]
      (fun _ => 100) 0 5).2.2
    ⟨"x.icloud.txt", "r/x.icloud.txt", true, some ⟨some 32, 0, 5, 0⟩⟩
    (by simp) (by simp) rfl (by decide) (by decide) (by decide) 0

end OT
